import Mathlib

/-!
Shallow embedding of `src/zenodo_uploader.py`.

The program is a single-run batch tool: it searches a Zenodo-style service
for an existing deposition, then either creates a new deposition or creates
new versions of the found one, uploads files, optionally attaches metadata,
and optionally publishes.  The remote service and the local filesystem are
modelled as an oracle (`Env`); every remote call and local sidecar read is
recorded in an event trace (`List Ev`) so that call counts and call order
can be stated.  HTTP responses are modelled with an `ok` flag meaning "the
response status was 2xx"; `requests.raise_for_status` is modelled as failing
exactly when `ok` is false, and a raised exception is an `Except.error` that
the callers propagate (the Python code never catches it outside the search).
-/

namespace ZenodoUploader

/-- One hit of the search response, with the fields the code reads:
`id`, `metadata.title`, `owner`, `metadata.publication_date`,
`links.bucket`, `links.html`. -/
structure Hit where
  id : Nat
  title : String
  owner : String
  publication_date : String
  bucket : String
  html : String
deriving DecidableEq

/-- The deposition object returned by `GET deposit/depositions/...`:
the code reads `id`, `links.bucket`, `links.html` and
`files[*].checksum`. -/
structure DepObj where
  id : Nat
  bucket : String
  html : String
  checksums : List String
deriving DecidableEq

/-- An HTTP response: `ok` is true when the status code is 2xx
(`raise_for_status` raises exactly when it is not), `val` is the
decoded JSON payload. -/
structure Resp (α : Type) where
  ok : Bool
  val : α
deriving DecidableEq

/-- The config metadata record; the code reads only
`meta_data["metadata"]["title"]` from it and otherwise passes it through
verbatim, so only the title is modelled. -/
structure MetaData where
  title : String
deriving DecidableEq

/-- Errors that abort the run: an uncaught HTTP error raised by
`raise_for_status` (or `RuntimeError` outside a `try`), a missing upload
file (`FileNotFoundError`), or a missing sidecar checksum file
(`open` raising). -/
inductive Err where
  | httpError
  | fileNotFound (path : String)
  | sidecarNotFound (path : String)
deriving DecidableEq

/-- Events of a run: each remote HTTP call made and each sidecar read. -/
inductive Ev where
  | search (query : String)
  | newVersionPost (depId : Nat)
  | getDep (idStr : String)
  | newDepositionPost
  | readSidecar (path : String)
  | putFile (bucketUrl : String) (filebase : String)
  | putMetadata (depId : Nat)
  | publishPost (depId : Nat)
deriving DecidableEq

/-- The oracle for the remote service and the local filesystem.
`searchResponse = none` models any exception inside the search's `try`
block (transport error, JSON error, or the non-200 `RuntimeError`). -/
structure Env where
  searchResponse : Option (List Hit)
  createResp : Resp DepObj
  newVersionResp : Nat → Resp String
  getDepResp : String → Resp DepObj
  putFileOk : Bool
  putMetaOk : Bool
  publishOk : Bool
  readFile : String → Option String
  isFile : String → Bool
  absPath : String → String

/-! ## String helpers translated from the Python library calls used -/
/-- Model of `search.replace("/", " ")` for the single-character pattern: every
slash character becomes a space. -/
def replaceSlash (s : String) : String :=
  ⟨s.data.map (fun c => if c = '/' then ' ' else c)⟩

/-- The query string before the slash replacement:
`f'metadata.title:"T"'` plus, when `owner` is truthy, `f" owners:O"`. -/
def rawQuery (title : String) (owner : Option String) : String :=
  let s := "metadata.title:\"" ++ title ++ "\""
  match owner with
  | some o => if o = "" then s else s ++ " owners:" ++ o
  | none => s

/-- The query string actually sent (the `q` parameter before URL
encoding): the raw query with slashes replaced by spaces. -/
def buildQuery (title : String) (owner : Option String) : String :=
  replaceSlash (rawQuery title owner)

/-- Model of `url.split("/")[-1]`: the last slash-separated segment — everything
after the last `/` (the whole string when there is none). -/
def lastSegment (s : String) : String :=
  ⟨(s.data.reverse.takeWhile (fun c => c ≠ '/')).reverse⟩

/-- Python `str.strip()`: drop leading and trailing whitespace. -/
def pyStrip (s : String) : String :=
  ⟨((s.data.dropWhile Char.isWhitespace).reverse.dropWhile
      Char.isWhitespace).reverse⟩

/-- Model of `content.split("=")[-1].strip()`: everything after the last `=` (the
whole string when there is none), with surrounding whitespace
stripped. -/
def sidecarChecksum (content : String) : String :=
  pyStrip ⟨(content.data.reverse.takeWhile (fun c => c ≠ '=')).reverse⟩

/-- Python `str.replace(old, new)` on character lists, with explicit
fuel so that recursion is structural (the kernel can evaluate it): when
`old` is a non-empty prefix of the rest, emit `new` and skip past the
match, else keep the head; fuel at least the list length never runs
out.  (For the empty `old`, which the program never uses, this returns
the list unchanged.) -/
def replaceChars (old new : List Char) : Nat → List Char → List Char
  | 0, l => l
  | _ + 1, [] => []
  | fuel + 1, x :: xs =>
    if old ≠ [] ∧ old.isPrefixOf (x :: xs) then
      new ++ replaceChars old new fuel ((x :: xs).drop old.length)
    else
      x :: replaceChars old new fuel xs

/-- Python `str.replace(old, new)`. -/
def pyReplace (s old new : String) : String :=
  ⟨replaceChars old.data new.data s.data.length s.data⟩

/-- Python `filename.endswith(".tar.gz")`: a suffix test on the
character sequence. -/
def endsWithTarGz (s : String) : Bool :=
  ".tar.gz".data.isSuffixOf s.data

/-- Model of `os.path.dirname` (posix): everything up to the last `/`, with
trailing slashes stripped unless the head is all slashes. -/
def dirname (p : String) : String :=
  let head := (p.data.reverse.dropWhile (fun c => c ≠ '/')).reverse
  if head.isEmpty || head.all (fun c => c = '/') then ⟨head⟩
  else ⟨(head.reverse.dropWhile (fun c => c = '/')).reverse⟩

/-- Model of `os.path.basename` (posix): everything after the last `/`. -/
def basename (p : String) : String :=
  ⟨(p.data.reverse.takeWhile (fun c => c ≠ '/')).reverse⟩

/-! ## Resolver (`search_for_deposition`) -/
/-- The client-side filter of line 61-64:
`deposition["metadata"]["title"] == title or deposition["owner"] == owner`
(Python compares the owner field against `None` as plain inequality, so a
`none` owner matches nothing). -/
def matchesFilter (title : String) (owner : Option String) (h : Hit) : Bool :=
  h.title == title || some h.owner == owner

/-- The filtered candidate list, in original result order. -/
def filteredHits (title : String) (owner : Option String)
    (records : List Hit) : List Hit :=
  records.filter (matchesFilter title owner)

/-- One step of the stable descending insertion modelling
`sorted(..., key=publication_date, reverse=True)`: `x` is placed before
the first element whose date is not greater than `x`'s, so elements with
equal dates keep their original relative order. -/
def insertDesc (x : Hit) : List Hit → List Hit
  | [] => [x]
  | y :: ys =>
    if x.publication_date < y.publication_date then y :: insertDesc x ys
    else x :: y :: ys

/-- Stable sort by `publication_date`, descending: the semantics of
Python's `sorted(depositions, key=..., reverse=True)`. -/
def sortDesc : List Hit → List Hit
  | [] => []
  | x :: xs => insertDesc x (sortDesc xs)

/-- Translation of `search_for_deposition(title, owner)`: builds the query, sends it
(recorded as a `search` event), and on success filters and sorts the hits
and returns `(id, links.bucket, links.html with "deposit" -> "record")`;
any failure path returns `none` (the Python `(None, None, None)`). -/
def search_for_deposition (env : Env) (title : String) (owner : Option String) :
    Option (Nat × String × String) × List Ev :=
  let query := buildQuery title owner
  let tr := [Ev.search query]
  match env.searchResponse with
  | none => (none, tr)
  | some records =>
    if records.isEmpty then (none, tr)
    else
      let depositions := filteredHits title owner records
      if depositions.isEmpty then (none, tr)
      else
        match (sortDesc depositions).head? with
        | none => (none, tr)
        | some d =>
          (some (d.id, d.bucket, pyReplace d.html "deposit" "record"), tr)

/-! ## Version/Creation Selector -/
/-- Translation of `create_new_version(deposition_id)`: POSTs the `newversion` action
against the given id, extracts the new draft's id from the returned
`links.latest_draft` URL (its last slash segment), re-fetches that draft,
and returns `(id, links.bucket, links.html with "deposit" -> "record")`.
Either `raise_for_status` aborts with an HTTP error. -/
def create_new_version (env : Env) (deposition_id : Nat) :
    Except Err (Nat × String × String) × List Ev :=
  let r := env.newVersionResp deposition_id
  let tr := [Ev.newVersionPost deposition_id]
  if !r.ok then (Except.error Err.httpError, tr)
  else
    let new_deposition_id := lastSegment r.val
    let r2 := env.getDepResp new_deposition_id
    let tr := tr ++ [Ev.getDep new_deposition_id]
    if !r2.ok then (Except.error Err.httpError, tr)
    else
      (Except.ok (r2.val.id, r2.val.bucket,
        pyReplace r2.val.html "deposit" "record"), tr)

/-- Translation of `create_new_deposition()`: empty-body POST to `deposit/depositions`;
returns the fresh draft's `(id, links.bucket, links.html with
"deposit" -> "record")`, or aborts on a non-2xx response. -/
def create_new_deposition (env : Env) :
    Except Err (Nat × String × String) × List Ev :=
  let r := env.createResp
  let tr := [Ev.newDepositionPost]
  if !r.ok then (Except.error Err.httpError, tr)
  else
    (Except.ok (r.val.id, r.val.bucket,
      pyReplace r.val.html "deposit" "record"), tr)

/-! ## Uploader (`upload_to_zenodo`) -/
/-- The sidecar checksum file path for an upload:
`f"os.path.dirname(filename)/env_name-md5sum.txt"`. -/
def md5sumPath (filename env_name : String) : String :=
  dirname filename ++ "/" ++ env_name ++ "-md5sum.txt"

/-- Translation of `upload_to_zenodo(deposition_id, filename, bucket_url, file_url,
filebase, env_name)`: when `filename` ends in `.tar.gz`, first GETs the
deposition (id interpolated into the URL), reads the sidecar checksum
file, and skips the upload (returning without a PUT) when the sidecar
checksum appears among the stored file checksums; otherwise — and always
for non-archive names — PUTs the file to `bucket_url/filebase`.
`file_url` is only printed by the Python code and is unused here. -/
def upload_to_zenodo (env : Env) (deposition_id : Nat) (filename : String)
    (bucket_url : String) (file_url : String) (filebase : String)
    (env_name : String) : Except Err Unit × List Ev :=
  if endsWithTarGz filename then
    let r := env.getDepResp (toString deposition_id)
    let tr := [Ev.getDep (toString deposition_id)]
    if !r.ok then (Except.error Err.httpError, tr)
    else
      let files_checksums := r.val.checksums
      let md5sum_file := md5sumPath filename env_name
      match env.readFile md5sum_file with
      | none =>
        (Except.error (Err.sidecarNotFound md5sum_file),
          tr ++ [Ev.readSidecar md5sum_file])
      | some content =>
        let tr := tr ++ [Ev.readSidecar md5sum_file]
        let current_file_checksum := sidecarChecksum content
        if files_checksums.contains current_file_checksum then
          (Except.ok (), tr)
        else
          let tr := tr ++ [Ev.putFile bucket_url filebase]
          if env.putFileOk then (Except.ok (), tr)
          else (Except.error Err.httpError, tr)
  else
    let tr := [Ev.putFile bucket_url filebase]
    if env.putFileOk then (Except.ok (), tr)
    else (Except.error Err.httpError, tr)

/-! ## Metadata Publisher -/
/-- Translation of `add_meta_data(deposition_id, meta_data)`: PUTs the metadata JSON to
the deposition resource; non-2xx aborts. -/
def add_meta_data (env : Env) (deposition_id : Nat) (meta_data : MetaData) :
    Except Err Unit × List Ev :=
  ((if env.putMetaOk then Except.ok () else Except.error Err.httpError),
    [Ev.putMetadata deposition_id])

/-- Translation of `publish_file(deposition_id)`: POSTs the `publish` action; non-2xx
aborts. -/
def publish_file (env : Env) (deposition_id : Nat) :
    Except Err Unit × List Ev :=
  ((if env.publishOk then Except.ok () else Except.error Err.httpError),
    [Ev.publishPost deposition_id])

/-! ## The `__main__` control flow -/
/-- The per-file loop of the new-deposition branch (lines 285-307):
for each file, resolve its absolute path and base name, raise
`FileNotFoundError` if it is not a file, upload it to the one created
deposition, then attach the metadata to that same deposition.  Any error
aborts the rest of the loop. -/
def uploadLoopNew (env : Env) (env_name : String) (meta_data : MetaData)
    (deposition_id : Nat) (bucket_url file_url : String) :
    List String → Except Err Unit × List Ev
  | [] => (Except.ok (), [])
  | file :: rest =>
    let filename := env.absPath file
    let filebase := basename filename
    if !env.isFile filename then
      (Except.error (Err.fileNotFound filename), [])
    else
      let u := upload_to_zenodo env deposition_id file bucket_url file_url
        filebase env_name
      match u.1 with
      | Except.error e => (Except.error e, u.2)
      | Except.ok _ =>
        let m := add_meta_data env deposition_id meta_data
        match m.1 with
        | Except.error e => (Except.error e, u.2 ++ m.2)
        | Except.ok _ =>
          let r := uploadLoopNew env env_name meta_data deposition_id
            bucket_url file_url rest
          (r.1, u.2 ++ m.2 ++ r.2)

/-- The per-file loop of the existing-deposition branch (lines 312-333):
for each file, check it exists, then create a new version of the
CURRENT deposition id (the id, bucket and record URL are reassigned from
the result each pass), and upload the file against that fresh draft.
Returns the final `(id, bucket, record URL)` triple for the optional
publish.  Any error aborts the rest of the loop. -/
def uploadLoopVer (env : Env) (env_name : String) (deposition_id : Nat)
    (bucket_url file_url : String) :
    List String → Except Err (Nat × String × String) × List Ev
  | [] => (Except.ok (deposition_id, bucket_url, file_url), [])
  | file :: rest =>
    let filename := env.absPath file
    let filebase := basename filename
    if !env.isFile filename then
      (Except.error (Err.fileNotFound filename), [])
    else
      let v := create_new_version env deposition_id
      match v.1 with
      | Except.error e => (Except.error e, v.2)
      | Except.ok (id2, b2, u2) =>
        let u := upload_to_zenodo env id2 file b2 u2 filebase env_name
        match u.1 with
        | Except.error e => (Except.error e, v.2 ++ u.2)
        | Except.ok _ =>
          let r := uploadLoopVer env env_name id2 b2 u2 rest
          (r.1, v.2 ++ u.2 ++ r.2)

/-- The `if not deposition_id:` branch (lines 280-310): create one new
deposition, run the per-file upload/metadata loop against it, then
publish that deposition when `--publish` is set. -/
def creationBranch (env : Env) (env_name : String) (meta_data : MetaData)
    (files : List String) (pub : Bool) : Except Err Unit × List Ev :=
  let c := create_new_deposition env
  match c.1 with
  | Except.error e => (Except.error e, c.2)
  | Except.ok (deposition_id, bucket_url, file_url) =>
    let r := uploadLoopNew env env_name meta_data deposition_id bucket_url
      file_url files
    match r.1 with
    | Except.error e => (Except.error e, c.2 ++ r.2)
    | Except.ok _ =>
      if pub then
        let p := publish_file env deposition_id
        (p.1, c.2 ++ r.2 ++ p.2)
      else (Except.ok (), c.2 ++ r.2)

/-- The `else` branch (lines 311-335): run the per-file
new-version/upload loop starting from the found deposition, then publish
the FINAL draft id when `--publish` is set.  No metadata is attached in
this branch. -/
def versionBranch (env : Env) (env_name : String) (deposition_id : Nat)
    (bucket_url file_url : String) (files : List String) (pub : Bool) :
    Except Err Unit × List Ev :=
  let r := uploadLoopVer env env_name deposition_id bucket_url file_url files
  match r.1 with
  | Except.error e => (Except.error e, r.2)
  | Except.ok (finalId, _, _) =>
    if pub then
      let p := publish_file env finalId
      (p.1, r.2 ++ p.2)
    else (Except.ok (), r.2)

/-- The whole run after config/env validation (lines 274-335): search for
a deposition by the config title and the owner from the environment; when
the returned id is falsy (Python `if not deposition_id:` — `None` or `0`)
take the creation branch, otherwise take the versioning branch. -/
def runMain (env : Env) (files : List String) (pub : Bool)
    (meta_data : MetaData) (owner : String) (env_name : String) :
    Except Err Unit × List Ev :=
  let s := search_for_deposition env meta_data.title (some owner)
  match s.1 with
  | none => let c := creationBranch env env_name meta_data files pub
            (c.1, s.2 ++ c.2)
  | some (deposition_id, bucket_url, file_url) =>
    if deposition_id = 0 then
      let c := creationBranch env env_name meta_data files pub
      (c.1, s.2 ++ c.2)
    else
      let v := versionBranch env env_name deposition_id bucket_url file_url
        files pub
      (v.1, s.2 ++ v.2)

/-! ## Trace observations -/
/-- Arguments of the `newversion` POST events, in order. -/
def newVersionArgs (t : List Ev) : List Nat :=
  t.filterMap (fun e => match e with
    | Ev.newVersionPost i => some i
    | _ => none)

/-- Bucket URLs of the file PUT events, in order. -/
def putFileBuckets (t : List Ev) : List String :=
  t.filterMap (fun e => match e with
    | Ev.putFile b _ => some b
    | _ => none)

/-- Arguments of the publish POST events, in order. -/
def publishArgs (t : List Ev) : List Nat :=
  t.filterMap (fun e => match e with
    | Ev.publishPost i => some i
    | _ => none)

/-- Number of `newversion` POSTs in a trace. -/
def countNewVersion (t : List Ev) : Nat := (newVersionArgs t).length

/-- Number of file PUTs in a trace. -/
def countPutFile (t : List Ev) : Nat := (putFileBuckets t).length

/-- Number of publish POSTs in a trace. -/
def countPublish (t : List Ev) : Nat := (publishArgs t).length

/-- Number of create-new-deposition POSTs in a trace. -/
def countNewDeposition (t : List Ev) : Nat :=
  (t.filter (fun e => match e with
    | Ev.newDepositionPost => true
    | _ => false)).length

/-- Number of metadata PUTs in a trace. -/
def countPutMeta (t : List Ev) : Nat :=
  (t.filter (fun e => match e with
    | Ev.putMetadata _ => true
    | _ => false)).length

/-- Number of deposition GETs in a trace. -/
def countGetDep (t : List Ev) : Nat :=
  (t.filter (fun e => match e with
    | Ev.getDep _ => true
    | _ => false)).length

/-- Number of sidecar reads in a trace. -/
def countReadSidecar (t : List Ev) : Nat :=
  (t.filter (fun e => match e with
    | Ev.readSidecar _ => true
    | _ => false)).length

/-! ## Derived environment observations for the versioning chain -/
/-- The draft deposition produced by one `create_new_version` call against
`id` in environment `env`: the deposition fetched at the last segment of
the returned `latest_draft` link. -/
def draftObj (env : Env) (id : Nat) : DepObj :=
  (env.getDepResp (lastSegment (env.newVersionResp id).val)).val

/-- The id of that draft: the id the next loop iteration starts from. -/
def draftStep (env : Env) (id : Nat) : Nat := (draftObj env id).id

/-- The buckets targeted by `n` successive new-version drafts starting
from `id`: bucket of the first draft, then of the draft of the draft, … -/
def chainBuckets (env : Env) (id : Nat) : Nat → List String
  | 0 => []
  | n + 1 => (draftObj env id).bucket :: chainBuckets env (draftStep env id) n

/-! ## Concrete demonstration values (used by witnesses) -/
/-- A small decimal parser for demonstration environments (avoids the
byte-position machinery of `String.toNat!`, which the kernel cannot
evaluate). -/
def demoParseNat (s : String) : Nat :=
  s.data.foldl (fun acc c => acc * 10 + (c.toNat - 48)) 0

/-- A deposition object with a recognisable bucket/html per id. -/
def demoDep (n : Nat) : DepObj :=
  ⟨n, "bucket-" ++ toString n, "deposit/" ++ toString n, []⟩

/-- A search hit for demonstrations. -/
def hitW : Hit :=
  ⟨7, "T", "me", "2024-01-01", "bucket-7", "deposit/7"⟩

/-- A fully successful environment in which the search finds nothing. -/
def envHappy : Env where
  searchResponse := none
  createResp := ⟨true, demoDep 1⟩
  newVersionResp := fun i => ⟨true, "api/deposit/depositions/" ++ toString (i + 1)⟩
  getDepResp := fun s => ⟨true, ⟨demoParseNat s, "bucket-" ++ s, "deposit/" ++ s, []⟩⟩
  putFileOk := true
  putMetaOk := true
  publishOk := true
  readFile := fun _ => some "label=abc123"
  isFile := fun _ => true
  absPath := fun p => p

/-- The same environment, but the search finds `hitW`. -/
def envFound : Env :=
  { envHappy with searchResponse := some [hitW] }

/-! ## Selection: the head of the stable descending sort -/
/-- The first element of `x :: l` carrying the maximal publication date:
the element a stable descending sort must put first. -/
def firstMaxH (x : Hit) : List Hit → Hit
  | [] => x
  | y :: ys =>
    if x.publication_date < (firstMaxH y ys).publication_date
    then firstMaxH y ys else x

/-- A second hit, with a later publication date, for witnesses. -/
def hitV : Hit :=
  ⟨9, "T2", "you", "2024-02-01", "bucket-9", "deposit/9"⟩

/-! ## Fully successful runs -/
/-- A run in which every remote call succeeds (2xx), every local path is
a file, every sidecar read succeeds, and the deposition file lists are
empty (so no archive upload is skipped). -/
structure HappyEnv (env : Env) : Prop where
  create_ok : env.createResp.ok = true
  newVersion_ok : ∀ i, (env.newVersionResp i).ok = true
  getDep_ok : ∀ s, (env.getDepResp s).ok = true
  putFile_ok : env.putFileOk = true
  putMeta_ok : env.putMetaOk = true
  publish_ok : env.publishOk = true
  isFile_all : ∀ p, env.isFile p = true
  readFile_all : ∀ p, (env.readFile p).isSome
  checksums_nil : ∀ s, (env.getDepResp s).val.checksums = []

/-- The ids the successive `newversion` POSTs of the existing-deposition
loop are issued against: the resolved id first, then the id of each
freshly fetched draft. -/
def chainIds (env : Env) (id : Nat) : Nat → List Nat
  | 0 => []
  | n + 1 => id :: chainIds env (draftStep env id) n

/-- The expected event trace of the existing-deposition loop in a fully
successful no-skip run: per file one `newversion` POST against the
current id, one draft GET, then the upload's events against the fresh
draft (preceded by a checksum GET and a sidecar read when the name is an
archive), the current id advancing to the draft's id. -/
def verTrace (env : Env) (env_name : String) (id : Nat) :
    List String → List Ev
  | [] => []
  | f :: rest =>
    let seg := lastSegment (env.newVersionResp id).val
    let d := (env.getDepResp seg).val
    Ev.newVersionPost id :: Ev.getDep seg ::
      ((if endsWithTarGz f then
          [Ev.getDep (toString d.id), Ev.readSidecar (md5sumPath f env_name)]
        else []) ++
        (Ev.putFile d.bucket (basename (env.absPath f)) ::
          verTrace env env_name d.id rest))

/-- The `(id, bucket, record URL)` triple the existing-deposition loop
ends with in a fully successful run. -/
def verFinal (env : Env) (s : Nat × String × String) :
    List String → Nat × String × String
  | [] => s
  | _f :: rest =>
    let d := (env.getDepResp (lastSegment (env.newVersionResp s.1).val)).val
    verFinal env (d.id, d.bucket, pyReplace d.html "deposit" "record") rest

/-- The expected trace of the new-deposition loop over non-archive files
when every PUT succeeds: per file one file PUT into the created bucket
followed by one metadata PUT against the created id. -/
def newTraceNA (env : Env) (id : Nat) (b : String) : List String → List Ev
  | [] => []
  | f :: rest =>
    Ev.putFile b (basename (env.absPath f)) :: Ev.putMetadata id
      :: newTraceNA env id b rest

/-- The happy environment with a failing upload PUT, for the C9
witness. -/
def envPutFail : Env := { envHappy with putFileOk := false }

/-! ## Theorems -/
/-- The search trace is always exactly one search event carrying the
built query string. -/
lemma search_trace (env : Env) (title : String) (owner : Option String) :
    (search_for_deposition env title owner).2
      = [Ev.search (buildQuery title owner)] := by
  unfold search_for_deposition
  cases env.searchResponse <;> dsimp <;> repeat (first | rfl | split)

/-- C4: the Resolver's client-side filter is an inclusive OR — a search
hit is kept iff it was among the results and its metadata title equals
the query title or its owner equals the given owner; in particular a
title match under a different owner qualifies, an owner match with a
different title qualifies, and a hit matching neither is excluded. -/
theorem claim_C4 (title : String) (owner : Option String)
    (records : List Hit) (h : Hit) :
    h ∈ filteredHits title owner records
      ↔ h ∈ records ∧ (h.title = title ∨ some h.owner = owner) := by
  simp [filteredHits, matchesFilter, List.mem_filter]

/-- Witness for C4 at concrete inputs: a hit whose owner matches but
whose title differs is kept. -/
theorem claim_C4_witness :
    hitW ∈ filteredHits "Other title" (some "me") [hitW]
      ↔ hitW ∈ [hitW] ∧ (hitW.title = "Other title" ∨ some hitW.owner = some "me") :=
  claim_C4 "Other title" (some "me") [hitW] hitW

/-- C8: the query string the Resolver sends is the raw query with every
slash replaced by a space — the search event carries exactly that string,
and it contains no slash character. -/
theorem claim_C8 (env : Env) (title : String) (owner : Option String) :
    (search_for_deposition env title owner).2
        = [Ev.search (buildQuery title owner)]
      ∧ (buildQuery title owner).data
          = (rawQuery title owner).data.map (fun c => if c = '/' then ' ' else c)
      ∧ ∀ c ∈ (buildQuery title owner).data, c ≠ '/' := by
  refine ⟨search_trace env title owner, rfl, ?_⟩
  intro c hc
  have : c ∈ (rawQuery title owner).data.map
      (fun c => if c = '/' then ' ' else c) := hc
  obtain ⟨a, _, rfl⟩ := List.mem_map.mp this
  by_cases h : a = '/' <;> simp [h]

/-- Witness for C8 at a concrete slash-containing title. -/
theorem claim_C8_witness :
    (search_for_deposition envHappy "My/Project v2" (some "me")).2
        = [Ev.search (buildQuery "My/Project v2" (some "me"))]
      ∧ (buildQuery "My/Project v2" (some "me")).data
          = (rawQuery "My/Project v2" (some "me")).data.map
              (fun c => if c = '/' then ' ' else c)
      ∧ ∀ c ∈ (buildQuery "My/Project v2" (some "me")).data, c ≠ '/' :=
  claim_C8 envHappy "My/Project v2" (some "me")

/-- C7: for a file whose name does not end in the archive suffix, the
Uploader makes no deposition GET and no sidecar read and never skips: its
trace is exactly one file PUT, and the result only reflects the PUT's
status. -/
theorem claim_C7 (env : Env) (deposition_id : Nat)
    (filename bucket_url file_url filebase env_name : String)
    (hna : endsWithTarGz filename = false) :
    (upload_to_zenodo env deposition_id filename bucket_url file_url
        filebase env_name).2 = [Ev.putFile bucket_url filebase]
      ∧ (upload_to_zenodo env deposition_id filename bucket_url file_url
          filebase env_name).1
        = (if env.putFileOk then Except.ok () else Except.error Err.httpError)
      ∧ countGetDep (upload_to_zenodo env deposition_id filename bucket_url
          file_url filebase env_name).2 = 0
      ∧ countReadSidecar (upload_to_zenodo env deposition_id filename
          bucket_url file_url filebase env_name).2 = 0
      ∧ countPutFile (upload_to_zenodo env deposition_id filename bucket_url
          file_url filebase env_name).2 = 1 := by
  unfold upload_to_zenodo
  rw [hna]
  cases h : env.putFileOk <;>
    simp [countGetDep, countReadSidecar, countPutFile, putFileBuckets]

/-- Witness for C7: a plain-text report uploads unconditionally even
though no sidecar file exists in the environment. -/
theorem claim_C7_witness :
    (upload_to_zenodo { envHappy with readFile := fun _ => none } 1
        "report.txt" "bucket-1" "deposit/1" "report.txt" "env").2
      = [Ev.putFile "bucket-1" "report.txt"]
      ∧ (upload_to_zenodo { envHappy with readFile := fun _ => none } 1
          "report.txt" "bucket-1" "deposit/1" "report.txt" "env").1
        = (if ({ envHappy with readFile := fun _ => none } : Env).putFileOk
            then Except.ok () else Except.error Err.httpError)
      ∧ countGetDep (upload_to_zenodo { envHappy with readFile := fun _ => none } 1
          "report.txt" "bucket-1" "deposit/1" "report.txt" "env").2 = 0
      ∧ countReadSidecar (upload_to_zenodo { envHappy with readFile := fun _ => none } 1
          "report.txt" "bucket-1" "deposit/1" "report.txt" "env").2 = 0
      ∧ countPutFile (upload_to_zenodo { envHappy with readFile := fun _ => none } 1
          "report.txt" "bucket-1" "deposit/1" "report.txt" "env").2 = 1 :=
  claim_C7 { envHappy with readFile := fun _ => none } 1
    "report.txt" "bucket-1" "deposit/1" "report.txt" "env" (by decide)

/-- C2: for an archive upload whose sidecar checksum already appears
among the deposition's stored file checksums, the Uploader performs no
PUT and returns without error. -/
theorem claim_C2 (env : Env) (deposition_id : Nat)
    (filename bucket_url file_url filebase env_name content : String)
    (har : endsWithTarGz filename = true)
    (hok : (env.getDepResp (toString deposition_id)).ok = true)
    (hread : env.readFile (md5sumPath filename env_name) = some content)
    (hmem : sidecarChecksum content
      ∈ (env.getDepResp (toString deposition_id)).val.checksums) :
    (upload_to_zenodo env deposition_id filename bucket_url file_url
        filebase env_name).1 = Except.ok ()
      ∧ countPutFile (upload_to_zenodo env deposition_id filename bucket_url
          file_url filebase env_name).2 = 0 := by
  unfold upload_to_zenodo
  simp [har, hok, hread, hmem, countPutFile, putFileBuckets]

/-- Witness for C2: a concrete environment storing the sidecar checksum
`abc123` skips the upload of `build.tar.gz`. -/
theorem claim_C2_witness :
    (upload_to_zenodo
        { envHappy with getDepResp := fun s => ⟨true, ⟨demoParseNat s, "b", "d", ["abc123"]⟩⟩ }
        3 "out/build.tar.gz" "b" "d" "build.tar.gz" "env").1 = Except.ok ()
      ∧ countPutFile (upload_to_zenodo
          { envHappy with getDepResp := fun s => ⟨true, ⟨demoParseNat s, "b", "d", ["abc123"]⟩⟩ }
          3 "out/build.tar.gz" "b" "d" "build.tar.gz" "env").2 = 0 :=
  claim_C2
    { envHappy with getDepResp := fun s => ⟨true, ⟨demoParseNat s, "b", "d", ["abc123"]⟩⟩ }
    3 "out/build.tar.gz" "b" "d" "build.tar.gz" "env" "label=abc123"
    (by decide) rfl rfl (by decide)

/-! ## Trace-count lemmas over all execution paths -/
lemma newVersionArgs_append (a b : List Ev) :
    newVersionArgs (a ++ b) = newVersionArgs a ++ newVersionArgs b := by
  simp [newVersionArgs]

lemma countNewVersion_append (a b : List Ev) :
    countNewVersion (a ++ b) = countNewVersion a + countNewVersion b := by
  simp [countNewVersion, newVersionArgs]

lemma countPutFile_append (a b : List Ev) :
    countPutFile (a ++ b) = countPutFile a + countPutFile b := by
  simp [countPutFile, putFileBuckets]

lemma countPublish_append (a b : List Ev) :
    countPublish (a ++ b) = countPublish a + countPublish b := by
  simp [countPublish, publishArgs]

lemma countNewDeposition_append (a b : List Ev) :
    countNewDeposition (a ++ b)
      = countNewDeposition a + countNewDeposition b := by
  simp [countNewDeposition]

lemma countPutMeta_append (a b : List Ev) :
    countPutMeta (a ++ b) = countPutMeta a + countPutMeta b := by
  simp [countPutMeta]

/-- The Uploader's trace holds only deposition GETs, sidecar reads and
file PUTs — never a versioning, creation, metadata or publish call. -/
lemma upload_trace_shape (env : Env) (deposition_id : Nat)
    (filename bucket_url file_url filebase env_name : String) :
    countNewVersion (upload_to_zenodo env deposition_id filename bucket_url
        file_url filebase env_name).2 = 0
      ∧ countNewDeposition (upload_to_zenodo env deposition_id filename
          bucket_url file_url filebase env_name).2 = 0
      ∧ countPutMeta (upload_to_zenodo env deposition_id filename bucket_url
          file_url filebase env_name).2 = 0
      ∧ countPublish (upload_to_zenodo env deposition_id filename bucket_url
          file_url filebase env_name).2 = 0 := by
  unfold upload_to_zenodo
  dsimp only
  repeat' split
  all_goals exact ⟨rfl, rfl, rfl, rfl⟩

/-- Lemma: `create_new_deposition` always records exactly one creation POST. -/
lemma create_new_deposition_trace (env : Env) :
    (create_new_deposition env).2 = [Ev.newDepositionPost] := by
  unfold create_new_deposition
  dsimp only
  split <;> rfl

/-- Lemma: `create_new_version` records one versioning POST (plus possibly one
draft GET) and nothing else. -/
lemma create_new_version_trace_shape (env : Env) (deposition_id : Nat) :
    countNewVersion (create_new_version env deposition_id).2 = 1
      ∧ countNewDeposition (create_new_version env deposition_id).2 = 0
      ∧ countPutMeta (create_new_version env deposition_id).2 = 0
      ∧ countPublish (create_new_version env deposition_id).2 = 0
      ∧ countPutFile (create_new_version env deposition_id).2 = 0 := by
  unfold create_new_version
  dsimp only
  repeat' split
  all_goals exact ⟨rfl, rfl, rfl, rfl, rfl⟩

/-- The new-deposition per-file loop never makes a versioning, creation
or publish call. -/
lemma loopNew_trace_shape (env : Env) (env_name : String) (md : MetaData)
    (deposition_id : Nat) (bucket_url file_url : String) :
    ∀ files : List String,
      countNewVersion (uploadLoopNew env env_name md deposition_id
          bucket_url file_url files).2 = 0
        ∧ countNewDeposition (uploadLoopNew env env_name md deposition_id
            bucket_url file_url files).2 = 0
        ∧ countPublish (uploadLoopNew env env_name md deposition_id
            bucket_url file_url files).2 = 0 := by
  intro files
  induction files with
  | nil => exact ⟨rfl, rfl, rfl⟩
  | cons f rest ih =>
    have hu := upload_trace_shape env deposition_id f bucket_url file_url
      (basename (env.absPath f)) env_name
    unfold uploadLoopNew
    dsimp only
    split
    · exact ⟨rfl, rfl, rfl⟩
    · split
      · exact ⟨hu.1, hu.2.1, hu.2.2.2⟩
      · split
        · simp only [countNewVersion_append, countNewDeposition_append,
            countPublish_append, hu.1, hu.2.1, hu.2.2.2]
          exact ⟨rfl, rfl, rfl⟩
        · simp only [countNewVersion_append, countNewDeposition_append,
            countPublish_append, hu.1, hu.2.1, hu.2.2.2,
            ih.1, ih.2.1, ih.2.2]
          exact ⟨rfl, rfl, rfl⟩

/-- The existing-deposition per-file loop never makes a creation,
metadata or publish call. -/
lemma loopVer_trace_shape (env : Env) (env_name : String) :
    ∀ (files : List String) (deposition_id : Nat) (bucket_url file_url : String),
      countNewDeposition (uploadLoopVer env env_name deposition_id
          bucket_url file_url files).2 = 0
        ∧ countPutMeta (uploadLoopVer env env_name deposition_id
            bucket_url file_url files).2 = 0
        ∧ countPublish (uploadLoopVer env env_name deposition_id
            bucket_url file_url files).2 = 0 := by
  intro files
  induction files with
  | nil => exact fun _ _ _ => ⟨rfl, rfl, rfl⟩
  | cons f rest ih =>
    intro deposition_id bucket_url file_url
    have hv := create_new_version_trace_shape env deposition_id
    unfold uploadLoopVer
    dsimp only
    split
    · exact ⟨rfl, rfl, rfl⟩
    · split
      · exact ⟨hv.2.1, hv.2.2.1, hv.2.2.2.1⟩
      · rename_i x id2 b2 u2 heq
        have hu := upload_trace_shape env id2 f b2 u2
          (basename (env.absPath f)) env_name
        split
        · simp only [countNewDeposition_append, countPutMeta_append,
            countPublish_append, hv.2.1, hv.2.2.1, hv.2.2.2.1,
            hu.2.1, hu.2.2.1, hu.2.2.2]
          exact ⟨trivial, trivial, trivial⟩
        · have hr := ih id2 b2 u2
          simp only [countNewDeposition_append, countPutMeta_append,
            countPublish_append, hv.2.1, hv.2.2.1, hv.2.2.2.1,
            hu.2.1, hu.2.2.1, hu.2.2.2, hr.1, hr.2.1, hr.2.2]
          exact ⟨trivial, trivial, trivial⟩

/-- The creation branch posts exactly one new deposition and never calls
create-new-version, whatever happens downstream. -/
lemma creationBranch_counts (env : Env) (env_name : String) (md : MetaData)
    (files : List String) (pub : Bool) :
    countNewDeposition (creationBranch env env_name md files pub).2 = 1
      ∧ countNewVersion (creationBranch env env_name md files pub).2 = 0 := by
  unfold creationBranch
  dsimp only
  split
  · rw [create_new_deposition_trace]
    exact ⟨rfl, rfl⟩
  · rename_i x id b u heq
    have hl := loopNew_trace_shape env env_name md id b u files
    split
    · simp only [countNewDeposition_append, countNewVersion_append,
        create_new_deposition_trace, hl.1, hl.2.1]
      exact ⟨rfl, rfl⟩
    · split
      · simp only [countNewDeposition_append, countNewVersion_append,
          create_new_deposition_trace, hl.1, hl.2.1]
        exact ⟨rfl, rfl⟩
      · simp only [countNewDeposition_append, countNewVersion_append,
          create_new_deposition_trace, hl.1, hl.2.1]
        exact ⟨rfl, rfl⟩

/-- C5: when the search fails (exception or non-200), returns zero
results, or no candidate passes the filter, the Resolver returns `none`
(the Python `(None, None, None)`) and the run takes the creation path:
exactly one create-new-deposition call and no create-new-version call. -/
theorem claim_C5 (env : Env) (files : List String) (pub : Bool)
    (md : MetaData) (owner env_name : String)
    (hfail : env.searchResponse = none ∨ env.searchResponse = some []
      ∨ ∃ rs, env.searchResponse = some rs
          ∧ filteredHits md.title (some owner) rs = []) :
    (search_for_deposition env md.title (some owner)).1 = none
      ∧ countNewDeposition (runMain env files pub md owner env_name).2 = 1
      ∧ countNewVersion (runMain env files pub md owner env_name).2 = 0 := by
  have hnone : (search_for_deposition env md.title (some owner)).1 = none := by
    unfold search_for_deposition
    rcases hfail with h | h | ⟨rs, h, hf⟩
    · rw [h]
    · rw [h]
      rfl
    · rw [h]
      dsimp only
      by_cases hre : rs.isEmpty <;> simp [hre, hf]
  have hcb := creationBranch_counts env env_name md files pub
  refine ⟨hnone, ?_, ?_⟩ <;>
    · unfold runMain
      dsimp only
      rw [hnone]
      dsimp only
      simp only [countNewDeposition_append, countNewVersion_append,
        search_trace, hcb.1, hcb.2]
      rfl

/-- Witness for C5: the search of `envHappy` fails (its response is an
exception), one deposition is created and no version call is made. -/
theorem claim_C5_witness :
    (search_for_deposition envHappy "T" (some "me")).1 = none
      ∧ countNewDeposition (runMain envHappy ["a.txt"] false ⟨"T"⟩ "me" "env").2 = 1
      ∧ countNewVersion (runMain envHappy ["a.txt"] false ⟨"T"⟩ "me" "env").2 = 0 :=
  claim_C5 envHappy ["a.txt"] false ⟨"T"⟩ "me" "env" (Or.inl rfl)

lemma insertDesc_head (x : Hit) (l : List Hit) :
    (insertDesc x l).head? = some (match l.head? with
      | none => x
      | some y => if x.publication_date < y.publication_date then y else x) := by
  cases l with
  | nil => rfl
  | cons y ys =>
    unfold insertDesc
    by_cases h : x.publication_date < y.publication_date <;> simp [h]

lemma sortDesc_head (x : Hit) (xs : List Hit) :
    (sortDesc (x :: xs)).head? = some (firstMaxH x xs) := by
  induction xs generalizing x with
  | nil => rfl
  | cons y ys ih =>
    show (insertDesc x (sortDesc (y :: ys))).head? = _
    rw [insertDesc_head, ih y]
    rfl

lemma firstMaxH_mem (x : Hit) (l : List Hit) : firstMaxH x l ∈ x :: l := by
  induction l generalizing x with
  | nil => exact List.mem_singleton.mpr rfl
  | cons y ys ih =>
    unfold firstMaxH
    split
    · exact List.mem_cons_of_mem x (ih y)
    · exact List.mem_cons_self x _

lemma firstMaxH_max (x : Hit) (l : List Hit) :
    ∀ g ∈ x :: l, g.publication_date ≤ (firstMaxH x l).publication_date := by
  induction l generalizing x with
  | nil =>
    intro g hg
    rw [List.mem_singleton.mp hg]
    exact le_refl _
  | cons y ys ih =>
    intro g hg
    unfold firstMaxH
    split
    · rcases List.mem_cons.mp hg with hgx | hgm
      · rename_i h
        rw [hgx]
        exact le_of_lt h
      · exact ih y g hgm
    · rename_i h
      rcases List.mem_cons.mp hg with hgx | hgm
      · rw [hgx]
      · exact le_trans (ih y g hgm) (le_of_not_lt h)

lemma firstMaxH_first (x : Hit) (l : List Hit) :
    ∃ (i : Nat) (hi : i < (x :: l).length),
      (x :: l).get ⟨i, hi⟩ = firstMaxH x l
        ∧ ∀ (j : Nat) (hj : j < (x :: l).length), j < i →
            ((x :: l).get ⟨j, hj⟩).publication_date
              < (firstMaxH x l).publication_date := by
  induction l generalizing x with
  | nil =>
    refine ⟨0, by simp, rfl, ?_⟩
    intro j hj hji
    omega
  | cons y ys ih =>
    by_cases h : x.publication_date < (firstMaxH y ys).publication_date
    · obtain ⟨i, hi, hg, hb⟩ := ih y
      have hfm : firstMaxH x (y :: ys) = firstMaxH y ys := by
        show (if x.publication_date < (firstMaxH y ys).publication_date
          then firstMaxH y ys else x) = firstMaxH y ys
        exact if_pos h
      refine ⟨i + 1, by simpa using hi, ?_, ?_⟩
      · rw [hfm]
        exact hg
      · intro j hj hji
        rw [hfm]
        cases j with
        | zero => exact h
        | succ j' => exact hb j' (by simpa using hj) (by omega)
    · have hfm : firstMaxH x (y :: ys) = x := by
        show (if x.publication_date < (firstMaxH y ys).publication_date
          then firstMaxH y ys else x) = x
        exact if_neg h
      refine ⟨0, by simp, by rw [hfm]; rfl, ?_⟩
      intro j hj hji
      omega

/-- C3: for every non-empty filtered candidate list, the selection
`sorted(..., reverse=True)[0]` returns the candidate with the
lexicographically latest publication date, ties broken by original order
(every earlier candidate has a strictly smaller date); and on candidate
lists with pairwise-distinct dates the chosen id is invariant under any
permutation of the input order. -/
theorem claim_C3 :
    (∀ l : List Hit, l ≠ [] →
      ∃ h : Hit, (sortDesc l).head? = some h
        ∧ ∃ (i : Nat) (hi : i < l.length),
            l.get ⟨i, hi⟩ = h
              ∧ (∀ g ∈ l, g.publication_date ≤ h.publication_date)
              ∧ ∀ (j : Nat) (hj : j < l.length), j < i →
                  (l.get ⟨j, hj⟩).publication_date < h.publication_date)
    ∧ ∀ l₁ l₂ : List Hit, l₁.Perm l₂ →
        l₁.Pairwise (fun a b => a.publication_date ≠ b.publication_date) →
        Option.map Hit.id (sortDesc l₁).head?
          = Option.map Hit.id (sortDesc l₂).head? := by
  have hsel : ∀ (x : Hit) (xs : List Hit),
      (sortDesc (x :: xs)).head? = some (firstMaxH x xs)
        ∧ firstMaxH x xs ∈ x :: xs
        ∧ ∀ g ∈ x :: xs,
            g.publication_date ≤ (firstMaxH x xs).publication_date :=
    fun x xs => ⟨sortDesc_head x xs, firstMaxH_mem x xs, firstMaxH_max x xs⟩
  constructor
  · intro l hne
    cases l with
    | nil => exact absurd rfl hne
    | cons x xs =>
      obtain ⟨i, hi, hg, hb⟩ := firstMaxH_first x xs
      exact ⟨firstMaxH x xs, sortDesc_head x xs,
        i, hi, hg, firstMaxH_max x xs, hb⟩
  · intro l₁ l₂ hp hd
    cases l₁ with
    | nil =>
      have : l₂ = [] := hp.symm.eq_nil
      rw [this]
    | cons x xs =>
      cases l₂ with
      | nil => exact absurd hp.eq_nil (List.cons_ne_nil x xs)
      | cons y ys =>
        obtain ⟨hh₁, hm₁, hx₁⟩ := hsel x xs
        obtain ⟨hh₂, hm₂, hx₂⟩ := hsel y ys
        have hmem₁₂ : firstMaxH x xs ∈ y :: ys := hp.mem_iff.mp hm₁
        have hmem₂₁ : firstMaxH y ys ∈ x :: xs := hp.symm.mem_iff.mp hm₂
        have hdate : (firstMaxH x xs).publication_date
            = (firstMaxH y ys).publication_date :=
          le_antisymm (hx₂ _ hmem₁₂) (hx₁ _ hmem₂₁)
        have hsymm : Symmetric
            (fun a b : Hit => a.publication_date ≠ b.publication_date) :=
          fun _ _ hab => Ne.symm hab
        have heq : firstMaxH x xs = firstMaxH y ys := by
          by_contra hne
          exact List.Pairwise.forall hsymm hd hm₁ hmem₂₁ hne hdate
        rw [hh₁, hh₂, heq]

/-- Witness for C3: a concrete selection on a singleton list, and
order-invariance of the chosen id on a concrete two-element list with
distinct dates. -/
theorem claim_C3_witness :
    (∃ h : Hit, (sortDesc [hitW]).head? = some h
      ∧ ∃ (i : Nat) (hi : i < ([hitW] : List Hit).length),
          ([hitW] : List Hit).get ⟨i, hi⟩ = h
            ∧ (∀ g ∈ [hitW], g.publication_date ≤ h.publication_date)
            ∧ ∀ (j : Nat) (hj : j < ([hitW] : List Hit).length), j < i →
                (([hitW] : List Hit).get ⟨j, hj⟩).publication_date
                  < h.publication_date)
    ∧ Option.map Hit.id (sortDesc [hitW, hitV]).head?
        = Option.map Hit.id (sortDesc [hitV, hitW]).head? :=
  ⟨claim_C3.1 [hitW] (by decide),
    claim_C3.2 [hitW, hitV] [hitV, hitW] (List.Perm.swap hitV hitW [])
      (by decide)⟩

lemma create_new_version_happy (env : Env) (hH : HappyEnv env) (id : Nat) :
    create_new_version env id
      = (Except.ok ((draftObj env id).id, (draftObj env id).bucket,
          pyReplace (draftObj env id).html "deposit" "record"),
        [Ev.newVersionPost id,
          Ev.getDep (lastSegment (env.newVersionResp id).val)]) := by
  unfold create_new_version
  dsimp only
  rw [hH.newVersion_ok id, hH.getDep_ok (lastSegment (env.newVersionResp id).val)]
  rfl

lemma upload_happy (env : Env) (hH : HappyEnv env) (id : Nat)
    (f b u fb en : String) :
    upload_to_zenodo env id f b u fb en
      = (Except.ok (),
        (if endsWithTarGz f then
            [Ev.getDep (toString id), Ev.readSidecar (md5sumPath f en)]
          else []) ++ [Ev.putFile b fb]) := by
  obtain ⟨c, hc⟩ := Option.isSome_iff_exists.mp (hH.readFile_all (md5sumPath f en))
  unfold upload_to_zenodo
  cases ha : endsWithTarGz f
  · simp [hH.putFile_ok]
  · dsimp only
    rw [hH.getDep_ok (toString id), hc, hH.checksums_nil (toString id)]
    simp [hH.putFile_ok]

/-- In a fully successful no-skip run, the existing-deposition loop
returns the final draft triple and produces exactly the expected trace. -/
lemma uploadLoopVer_happy (env : Env) (hH : HappyEnv env) (env_name : String) :
    ∀ (files : List String) (id : Nat) (b u : String),
      uploadLoopVer env env_name id b u files
        = (Except.ok (verFinal env (id, b, u) files),
          verTrace env env_name id files) := by
  intro files
  induction files with
  | nil =>
    intro id b u
    rfl
  | cons f rest ih =>
    intro id b u
    unfold uploadLoopVer
    dsimp only
    rw [hH.isFile_all (env.absPath f)]
    rw [create_new_version_happy env hH id]
    dsimp only
    rw [upload_happy env hH (draftObj env id).id f (draftObj env id).bucket
      (pyReplace (draftObj env id).html "deposit" "record")
      (basename (env.absPath f)) env_name]
    dsimp only
    rw [ih (draftObj env id).id (draftObj env id).bucket
      (pyReplace (draftObj env id).html "deposit" "record")]
    simp [verTrace, verFinal, draftObj, List.append_assoc]

lemma verFinal_fst (env : Env) :
    ∀ (files : List String) (s : Nat × String × String),
      (verFinal env s files).1
        = Nat.iterate (draftStep env) files.length s.1 := by
  intro files
  induction files with
  | nil =>
    intro s
    rfl
  | cons f rest ih =>
    intro s
    have hstep : verFinal env s (f :: rest)
        = verFinal env ((draftObj env s.1).id, (draftObj env s.1).bucket,
            pyReplace (draftObj env s.1).html "deposit" "record") rest := rfl
    rw [hstep, ih]
    rfl

lemma verTrace_cons (env : Env) (en : String) (id : Nat) (f : String)
    (rest : List String) :
    verTrace env en id (f :: rest)
      = [Ev.newVersionPost id,
          Ev.getDep (lastSegment (env.newVersionResp id).val)]
        ++ (if endsWithTarGz f then
              [Ev.getDep (toString (draftObj env id).id),
                Ev.readSidecar (md5sumPath f en)]
            else [])
        ++ ([Ev.putFile (draftObj env id).bucket (basename (env.absPath f))]
        ++ verTrace env en (draftStep env id) rest) := by
  cases ha : endsWithTarGz f <;> simp [verTrace, ha, draftObj, draftStep]

lemma putFileBuckets_append (a b : List Ev) :
    putFileBuckets (a ++ b) = putFileBuckets a ++ putFileBuckets b := by
  simp [putFileBuckets]

lemma verTrace_obs (env : Env) (en : String) :
    ∀ (files : List String) (id : Nat),
      newVersionArgs (verTrace env en id files) = chainIds env id files.length
        ∧ putFileBuckets (verTrace env en id files)
            = chainBuckets env id files.length
        ∧ countPublish (verTrace env en id files) = 0
        ∧ countPutMeta (verTrace env en id files) = 0 := by
  intro files
  induction files with
  | nil =>
    intro id
    exact ⟨rfl, rfl, rfl, rfl⟩
  | cons f rest ih =>
    intro id
    have hrest := ih (draftStep env id)
    have hifA : newVersionArgs (if endsWithTarGz f then
        [Ev.getDep (toString (draftObj env id).id),
          Ev.readSidecar (md5sumPath f en)] else []) = [] := by
      cases endsWithTarGz f <;> rfl
    have hifB : putFileBuckets (if endsWithTarGz f then
        [Ev.getDep (toString (draftObj env id).id),
          Ev.readSidecar (md5sumPath f en)] else []) = [] := by
      cases endsWithTarGz f <;> rfl
    have hifC : countPublish (if endsWithTarGz f then
        [Ev.getDep (toString (draftObj env id).id),
          Ev.readSidecar (md5sumPath f en)] else []) = 0 := by
      cases endsWithTarGz f <;> rfl
    have hifD : countPutMeta (if endsWithTarGz f then
        [Ev.getDep (toString (draftObj env id).id),
          Ev.readSidecar (md5sumPath f en)] else []) = 0 := by
      cases endsWithTarGz f <;> rfl
    rw [verTrace_cons]
    refine ⟨?_, ?_, ?_, ?_⟩
    · rw [newVersionArgs_append, newVersionArgs_append, newVersionArgs_append,
        hifA, hrest.1]
      show [id] ++ ([] ++ ([] ++ chainIds env (draftStep env id) rest.length))
        = chainIds env id (rest.length + 1)
      simp [chainIds]
    · rw [putFileBuckets_append, putFileBuckets_append, putFileBuckets_append,
        hifB, hrest.2.1]
      show [] ++ ([] ++ ([(draftObj env id).bucket]
          ++ chainBuckets env (draftStep env id) rest.length))
        = chainBuckets env id (rest.length + 1)
      simp [chainBuckets]
    · rw [countPublish_append, countPublish_append, countPublish_append,
        hifC, hrest.2.2.1]
      rfl
    · rw [countPutMeta_append, countPutMeta_append, countPutMeta_append,
        hifD, hrest.2.2.2]
      rfl

lemma chainIds_length (env : Env) :
    ∀ (n : Nat) (id : Nat), (chainIds env id n).length = n := by
  intro n
  induction n with
  | zero => intro id; rfl
  | succ n ih =>
    intro id
    show (id :: chainIds env (draftStep env id) n).length = n + 1
    simp [ih]

lemma chainBuckets_length (env : Env) :
    ∀ (n : Nat) (id : Nat), (chainBuckets env id n).length = n := by
  intro n
  induction n with
  | zero => intro id; rfl
  | succ n ih =>
    intro id
    show ((draftObj env id).bucket
        :: chainBuckets env (draftStep env id) n).length = n + 1
    simp [ih]

lemma chainIds_get_zero (env : Env) (n : Nat) (id : Nat)
    (h : 0 < (chainIds env id (n + 1)).length) :
    (chainIds env id (n + 1)).get ⟨0, h⟩ = id := rfl

lemma chainIds_get_succ (env : Env) :
    ∀ (n : Nat) (id : Nat) (i : Nat)
      (hi : i + 1 < (chainIds env id n).length)
      (hi0 : i < (chainIds env id n).length),
      (chainIds env id n).get ⟨i + 1, hi⟩
        = draftStep env ((chainIds env id n).get ⟨i, hi0⟩) := by
  intro n
  induction n with
  | zero =>
    intro id i hi hi0
    exact absurd hi (by simp [chainIds])
  | succ n ih =>
    intro id i hi hi0
    cases i with
    | zero =>
      show (chainIds env (draftStep env id) n).get ⟨0, _⟩ = draftStep env id
      cases n with
      | zero =>
        exact absurd hi (by simp [chainIds, chainIds_length])
      | succ m => rfl
    | succ j =>
      have hi' : j + 1 < (chainIds env (draftStep env id) n).length := by
        have := hi
        simp [chainIds, chainIds_length] at this ⊢
        omega
      have hi0' : j < (chainIds env (draftStep env id) n).length := by
        omega
      show (chainIds env (draftStep env id) n).get ⟨j + 1, hi'⟩
        = draftStep env ((chainIds env (draftStep env id) n).get ⟨j, hi0'⟩)
      exact ih (draftStep env id) j hi' hi0'

lemma publishArgs_append (a b : List Ev) :
    publishArgs (a ++ b) = publishArgs a ++ publishArgs b := by
  simp [publishArgs]

/-- In a fully successful no-skip run in which the Resolver found a
deposition with a truthy id, the whole run succeeds and its trace is the
search event, the versioning-loop trace, and (when publishing) one final
publish POST against the last draft id. -/
lemma runMain_found (env : Env) (hH : HappyEnv env) (files : List String)
    (pub : Bool) (md : MetaData) (owner env_name : String)
    (id0 : Nat) (b0 u0 : String)
    (hS : (search_for_deposition env md.title (some owner)).1
      = some (id0, b0, u0))
    (hId : id0 ≠ 0) :
    runMain env files pub md owner env_name
      = (Except.ok (),
        [Ev.search (buildQuery md.title (some owner))]
          ++ verTrace env env_name id0 files
          ++ (if pub then
              [Ev.publishPost (Nat.iterate (draftStep env) files.length id0)]
            else [])) := by
  have hfst := verFinal_fst env files (id0, b0, u0)
  unfold runMain
  dsimp only
  rw [hS]
  dsimp only
  rw [if_neg hId]
  unfold versionBranch
  dsimp only
  rw [uploadLoopVer_happy env hH env_name files id0 b0 u0]
  dsimp only
  generalize hvf : verFinal env (id0, b0, u0) files = vf
  rw [hvf] at hfst
  obtain ⟨fid, fb, fu⟩ := vf
  dsimp only at hfst
  cases pub
  · rw [search_trace]
    simp
  · unfold publish_file
    rw [hH.publish_ok, search_trace, hfst]
    simp

/-- C1: in a fully successful no-skip run in which the Resolver found a
deposition (truthy id) and `n` files are given, exactly `n` newversion
POSTs and `n` file PUTs are made, the `i`-th PUT targets the bucket of
the `i`-th freshly created version draft, and when `--publish` is set
exactly one publish POST is made, as the final event of the run. -/
theorem claim_C1 (env : Env) (files : List String) (pub : Bool)
    (md : MetaData) (owner env_name : String) (id0 : Nat) (b0 u0 : String)
    (hH : HappyEnv env)
    (hS : (search_for_deposition env md.title (some owner)).1
      = some (id0, b0, u0))
    (hId : id0 ≠ 0) :
    countNewVersion (runMain env files pub md owner env_name).2 = files.length
      ∧ countPutFile (runMain env files pub md owner env_name).2 = files.length
      ∧ putFileBuckets (runMain env files pub md owner env_name).2
          = chainBuckets env id0 files.length
      ∧ (pub = true →
          countPublish (runMain env files pub md owner env_name).2 = 1
            ∧ ∃ t, (runMain env files pub md owner env_name).2
                = t ++ [Ev.publishPost
                    (Nat.iterate (draftStep env) files.length id0)])
      ∧ (pub = false →
          countPublish (runMain env files pub md owner env_name).2 = 0) := by
  have hrm := runMain_found env hH files pub md owner env_name id0 b0 u0 hS hId
  have hobs := verTrace_obs env env_name files id0
  have hvn : countNewVersion (verTrace env env_name id0 files)
      = files.length := by
    show (newVersionArgs _).length = _
    rw [hobs.1, chainIds_length]
  have hpf : countPutFile (verTrace env env_name id0 files)
      = files.length := by
    show (putFileBuckets _).length = _
    rw [hobs.2.1, chainBuckets_length]
  refine ⟨?_, ?_, ?_, ?_, ?_⟩
  · rw [hrm]
    rw [countNewVersion_append, countNewVersion_append, hvn]
    have h3 : countNewVersion (if pub then
        [Ev.publishPost (Nat.iterate (draftStep env) files.length id0)]
      else []) = 0 := by
      cases pub <;> rfl
    have h1 : countNewVersion
        [Ev.search (buildQuery md.title (some owner))] = 0 := rfl
    rw [h3, h1]
    omega
  · rw [hrm]
    rw [countPutFile_append, countPutFile_append, hpf]
    have h3 : countPutFile (if pub then
        [Ev.publishPost (Nat.iterate (draftStep env) files.length id0)]
      else []) = 0 := by
      cases pub <;> rfl
    have h1 : countPutFile
        [Ev.search (buildQuery md.title (some owner))] = 0 := rfl
    rw [h3, h1]
    omega
  · rw [hrm]
    rw [putFileBuckets_append, putFileBuckets_append, hobs.2.1]
    have h3 : putFileBuckets (if pub then
        [Ev.publishPost (Nat.iterate (draftStep env) files.length id0)]
      else []) = [] := by
      cases pub <;> rfl
    have h1 : putFileBuckets
        [Ev.search (buildQuery md.title (some owner))] = [] := rfl
    rw [h3, h1]
    simp
  · intro hpub
    subst hpub
    rw [hrm]
    refine ⟨?_, ?_⟩
    · rw [countPublish_append, countPublish_append, hobs.2.2.1]
      rfl
    · exact ⟨[Ev.search (buildQuery md.title (some owner))]
        ++ verTrace env env_name id0 files, by simp⟩
  · intro hpub
    subst hpub
    rw [hrm]
    rw [countPublish_append, countPublish_append, hobs.2.2.1]
    rfl

/-- Witness for C1: a concrete successful two-file run against a found
deposition makes two newversion POSTs, two PUTs against the two distinct
draft buckets, and one final publish POST. -/
theorem claim_C1_witness :
    countNewVersion (runMain envFound ["a.txt", "b.tar.gz"] true ⟨"T"⟩
        "me" "env").2 = (["a.txt", "b.tar.gz"] : List String).length
      ∧ countPutFile (runMain envFound ["a.txt", "b.tar.gz"] true ⟨"T"⟩
          "me" "env").2 = (["a.txt", "b.tar.gz"] : List String).length
      ∧ putFileBuckets (runMain envFound ["a.txt", "b.tar.gz"] true ⟨"T"⟩
          "me" "env").2
        = chainBuckets envFound 7 (["a.txt", "b.tar.gz"] : List String).length
      ∧ (true = true →
          countPublish (runMain envFound ["a.txt", "b.tar.gz"] true ⟨"T"⟩
              "me" "env").2 = 1
            ∧ ∃ t, (runMain envFound ["a.txt", "b.tar.gz"] true ⟨"T"⟩
                "me" "env").2
              = t ++ [Ev.publishPost (Nat.iterate (draftStep envFound)
                  (["a.txt", "b.tar.gz"] : List String).length 7)])
      ∧ (true = false →
          countPublish (runMain envFound ["a.txt", "b.tar.gz"] true ⟨"T"⟩
              "me" "env").2 = 0) :=
  claim_C1 envFound ["a.txt", "b.tar.gz"] true ⟨"T"⟩ "me" "env"
    7 "bucket-7" "record/7"
    ⟨rfl, fun _ => rfl, fun _ => rfl, rfl, rfl, rfl,
      fun _ => rfl, fun _ => rfl, fun _ => rfl⟩
    (by decide) (by decide)

/-- C10: in the existing-deposition branch, the ids the successive
newversion POSTs are issued against form the chain that starts at the
resolved id and advances to the id of the draft fetched in the previous
iteration; and the final publish, when requested, targets the draft id
produced by the last iteration. -/
theorem claim_C10 (env : Env) (files : List String) (pub : Bool)
    (md : MetaData) (owner env_name : String) (id0 : Nat) (b0 u0 : String)
    (hH : HappyEnv env)
    (hS : (search_for_deposition env md.title (some owner)).1
      = some (id0, b0, u0))
    (hId : id0 ≠ 0) :
    newVersionArgs (runMain env files pub md owner env_name).2
        = chainIds env id0 files.length
      ∧ (∀ (i : Nat) (hi1 : i + 1 < (chainIds env id0 files.length).length)
          (hi0 : i < (chainIds env id0 files.length).length),
          (chainIds env id0 files.length).get ⟨i + 1, hi1⟩
            = draftStep env ((chainIds env id0 files.length).get ⟨i, hi0⟩))
      ∧ (pub = true →
          publishArgs (runMain env files pub md owner env_name).2
            = [Nat.iterate (draftStep env) files.length id0]) := by
  have hrm := runMain_found env hH files pub md owner env_name id0 b0 u0 hS hId
  have hobs := verTrace_obs env env_name files id0
  refine ⟨?_, ?_, ?_⟩
  · rw [hrm]
    rw [newVersionArgs_append, newVersionArgs_append, hobs.1]
    have h3 : newVersionArgs (if pub then
        [Ev.publishPost (Nat.iterate (draftStep env) files.length id0)]
      else []) = [] := by
      cases pub <;> rfl
    have h1 : newVersionArgs
        [Ev.search (buildQuery md.title (some owner))] = [] := rfl
    rw [h3, h1]
    simp
  · exact chainIds_get_succ env files.length id0
  · intro hpub
    subst hpub
    rw [hrm]
    rw [publishArgs_append, publishArgs_append,
      List.length_eq_zero.mp hobs.2.2.1]
    have h1 : publishArgs
        [Ev.search (buildQuery md.title (some owner))] = [] := rfl
    have h2 : publishArgs
        [Ev.publishPost (Nat.iterate (draftStep env) files.length id0)]
      = [Nat.iterate (draftStep env) files.length id0] := rfl
    rw [h1]
    simp [h2]

/-- Witness for C10: in the concrete two-file run the two newversion
POSTs target id 7 then the first draft's id, and the publish targets the
second draft's id. -/
theorem claim_C10_witness :
    newVersionArgs (runMain envFound ["a.txt", "b.tar.gz"] true ⟨"T"⟩
        "me" "env").2
      = chainIds envFound 7 (["a.txt", "b.tar.gz"] : List String).length
      ∧ (∀ (i : Nat)
          (hi1 : i + 1 < (chainIds envFound 7
            (["a.txt", "b.tar.gz"] : List String).length).length)
          (hi0 : i < (chainIds envFound 7
            (["a.txt", "b.tar.gz"] : List String).length).length),
          (chainIds envFound 7
              (["a.txt", "b.tar.gz"] : List String).length).get ⟨i + 1, hi1⟩
            = draftStep envFound ((chainIds envFound 7
                (["a.txt", "b.tar.gz"] : List String).length).get ⟨i, hi0⟩))
      ∧ (true = true →
          publishArgs (runMain envFound ["a.txt", "b.tar.gz"] true ⟨"T"⟩
              "me" "env").2
            = [Nat.iterate (draftStep envFound)
                (["a.txt", "b.tar.gz"] : List String).length 7]) :=
  claim_C10 envFound ["a.txt", "b.tar.gz"] true ⟨"T"⟩ "me" "env"
    7 "bucket-7" "record/7"
    ⟨rfl, fun _ => rfl, fun _ => rfl, rfl, rfl, rfl,
      fun _ => rfl, fun _ => rfl, fun _ => rfl⟩
    (by decide) (by decide)

/-! ## Creation-branch reductions -/
lemma search_none_of_response_none (env : Env) (title : String)
    (owner : Option String) (h : env.searchResponse = none) :
    (search_for_deposition env title owner).1 = none := by
  unfold search_for_deposition
  dsimp only
  rw [h]

lemma create_new_deposition_ok (env : Env) (hC : env.createResp.ok = true) :
    create_new_deposition env
      = (Except.ok (env.createResp.val.id, env.createResp.val.bucket,
          pyReplace env.createResp.val.html "deposit" "record"),
        [Ev.newDepositionPost]) := by
  unfold create_new_deposition
  dsimp only
  rw [hC]
  rfl

lemma upload_nonarchive (env : Env) (id : Nat) (f b u fb en : String)
    (ha : endsWithTarGz f = false) :
    upload_to_zenodo env id f b u fb en
      = ((if env.putFileOk then Except.ok () else Except.error Err.httpError),
        [Ev.putFile b fb]) := by
  unfold upload_to_zenodo
  rw [ha]
  cases env.putFileOk <;> rfl

lemma add_meta_data_eq (env : Env) (id : Nat) (md : MetaData) :
    add_meta_data env id md
      = ((if env.putMetaOk then Except.ok () else Except.error Err.httpError),
        [Ev.putMetadata id]) := rfl

lemma uploadLoopNew_nonarchive (env : Env) (en : String) (md : MetaData)
    (id : Nat) (b u : String) (hput : env.putFileOk = true)
    (hmeta : env.putMetaOk = true) (hfiles : ∀ p, env.isFile p = true) :
    ∀ files : List String, (∀ g ∈ files, endsWithTarGz g = false) →
      uploadLoopNew env en md id b u files
        = (Except.ok (), newTraceNA env id b files) := by
  intro files
  induction files with
  | nil =>
    intro _
    rfl
  | cons f rest ih =>
    intro hNA
    unfold uploadLoopNew
    dsimp only
    rw [hfiles (env.absPath f)]
    rw [upload_nonarchive env id f b u (basename (env.absPath f)) en
      (hNA f (List.mem_cons_self f rest)), hput]
    dsimp only
    rw [add_meta_data_eq, hmeta]
    dsimp only
    rw [ih (fun g hg => hNA g (List.mem_cons_of_mem f hg))]
    rfl

lemma newTraceNA_no_publish (env : Env) (id : Nat) (b : String) :
    ∀ files : List String, countPublish (newTraceNA env id b files) = 0 := by
  intro files
  induction files with
  | nil => rfl
  | cons f rest ih => exact ih

lemma versionBranch_meta (env : Env) (en : String) (id : Nat) (b u : String)
    (files : List String) (pub : Bool) :
    countPutMeta (versionBranch env en id b u files pub).2 = 0 := by
  have hl := loopVer_trace_shape env en files id b u
  unfold versionBranch
  dsimp only
  split
  · exact hl.2.1
  · split
    · rw [countPutMeta_append, hl.2.1]
      rfl
    · exact hl.2.1

/-- C6 counterexample: a concrete complete successful run (existing
deposition found, one file, publish unset) in which metadata is never
attached — refuting the claim that metadata is attached in every run
before the optional publish. -/
theorem claim_C6_counterexample :
    (runMain envFound ["data.txt"] false ⟨"T"⟩ "me" "env").1 = Except.ok ()
      ∧ countPutMeta (runMain envFound ["data.txt"] false ⟨"T"⟩
          "me" "env").2 = 0 := by
  exact ⟨rfl, by decide⟩

/-- C6 (amended): metadata is attached only in the new-deposition
branch, once per file immediately after that file's upload; in the
existing-deposition branch metadata is never attached.  In particular,
in the no-existing-deposition one-file scenario with `--publish` unset,
create-new-deposition is called once, upload once, metadata attached
once, and publish never called. -/
theorem claim_C6 :
    (∀ (env : Env) (f : String) (md : MetaData) (owner env_name : String),
      env.searchResponse = none → env.createResp.ok = true →
      env.putFileOk = true → env.putMetaOk = true →
      (∀ p, env.isFile p = true) → endsWithTarGz f = false →
      (runMain env [f] false md owner env_name).1 = Except.ok ()
        ∧ countNewDeposition (runMain env [f] false md owner env_name).2 = 1
        ∧ countPutFile (runMain env [f] false md owner env_name).2 = 1
        ∧ countPutMeta (runMain env [f] false md owner env_name).2 = 1
        ∧ countPublish (runMain env [f] false md owner env_name).2 = 0
        ∧ (runMain env [f] false md owner env_name).2
            = [Ev.search (buildQuery md.title (some owner)),
                Ev.newDepositionPost,
                Ev.putFile env.createResp.val.bucket
                  (basename (env.absPath f)),
                Ev.putMetadata env.createResp.val.id])
    ∧ (∀ (env : Env) (files : List String) (pub : Bool) (md : MetaData)
        (owner env_name : String) (id0 : Nat) (b0 u0 : String),
        (search_for_deposition env md.title (some owner)).1
            = some (id0, b0, u0) →
        id0 ≠ 0 →
        countPutMeta (runMain env files pub md owner env_name).2 = 0) := by
  constructor
  · intro env f md owner env_name hsr hC hput hmeta hfiles hNA
    have hnone := search_none_of_response_none env md.title (some owner) hsr
    have hrun : runMain env [f] false md owner env_name
        = (Except.ok (),
          [Ev.search (buildQuery md.title (some owner)),
            Ev.newDepositionPost,
            Ev.putFile env.createResp.val.bucket (basename (env.absPath f)),
            Ev.putMetadata env.createResp.val.id]) := by
      unfold runMain
      dsimp only
      rw [hnone]
      dsimp only
      unfold creationBranch
      dsimp only
      rw [create_new_deposition_ok env hC]
      dsimp only
      rw [uploadLoopNew_nonarchive env env_name md env.createResp.val.id
        env.createResp.val.bucket
        (pyReplace env.createResp.val.html "deposit" "record")
        hput hmeta hfiles [f]
        (fun g hg => by
          rw [List.mem_singleton.mp hg]
          exact hNA)]
      dsimp only
      rw [search_trace]
      rfl
    rw [hrun]
    exact ⟨rfl, rfl, rfl, rfl, rfl, rfl⟩
  · intro env files pub md owner env_name id0 b0 u0 hS hId
    unfold runMain
    dsimp only
    rw [hS]
    dsimp only
    rw [if_neg hId]
    rw [countPutMeta_append, versionBranch_meta, search_trace]
    rfl

/-- Witness for C6 (amended) at concrete inputs: the one-file
no-deposition scenario with `envHappy`, and the metadata-free versioning
branch with `envFound`. -/
theorem claim_C6_witness :
    ((runMain envHappy ["report.txt"] false ⟨"T"⟩ "me" "env").1
          = Except.ok ()
        ∧ countNewDeposition (runMain envHappy ["report.txt"] false ⟨"T"⟩
            "me" "env").2 = 1
        ∧ countPutFile (runMain envHappy ["report.txt"] false ⟨"T"⟩
            "me" "env").2 = 1
        ∧ countPutMeta (runMain envHappy ["report.txt"] false ⟨"T"⟩
            "me" "env").2 = 1
        ∧ countPublish (runMain envHappy ["report.txt"] false ⟨"T"⟩
            "me" "env").2 = 0
        ∧ (runMain envHappy ["report.txt"] false ⟨"T"⟩ "me" "env").2
            = [Ev.search (buildQuery (MetaData.mk "T").title (some "me")),
                Ev.newDepositionPost,
                Ev.putFile envHappy.createResp.val.bucket
                  (basename (envHappy.absPath "report.txt")),
                Ev.putMetadata envHappy.createResp.val.id])
      ∧ countPutMeta (runMain envFound ["report.txt"] true ⟨"T"⟩
          "me" "env").2 = 0 :=
  ⟨claim_C6.1 envHappy "report.txt" ⟨"T"⟩ "me" "env" rfl rfl rfl rfl
      (fun _ => rfl) (by decide),
    claim_C6.2 envFound ["report.txt"] true ⟨"T"⟩ "me" "env"
      7 "bucket-7" "record/7" (by decide) (by decide)⟩

lemma runMain_creation (env : Env) (files : List String) (pub : Bool)
    (md : MetaData) (owner en : String)
    (hsr : env.searchResponse = none) :
    runMain env files pub md owner en
      = ((creationBranch env en md files pub).1,
        [Ev.search (buildQuery md.title (some owner))]
          ++ (creationBranch env en md files pub).2) := by
  have hnone := search_none_of_response_none env md.title (some owner) hsr
  unfold runMain
  dsimp only
  rw [hnone]
  dsimp only
  rw [search_trace]

/-- C9: a non-2xx response to the upload PUT, the metadata PUT or the
publish POST is fatal for the run: the error propagates immediately
without retry (each failing call appears exactly once in the trace) and
the remainder of the run is aborted (no later metadata or publish call
happens). -/
theorem claim_C9 (env : Env) (f : String) (rest : List String) (pub : Bool)
    (md : MetaData) (owner env_name : String)
    (hsr : env.searchResponse = none)
    (hC : env.createResp.ok = true)
    (hfiles : ∀ p, env.isFile p = true)
    (hNA : ∀ g ∈ f :: rest, endsWithTarGz g = false) :
    (env.putFileOk = false →
      (runMain env (f :: rest) pub md owner env_name).1
          = Except.error Err.httpError
        ∧ countPutFile (runMain env (f :: rest) pub md owner env_name).2 = 1
        ∧ countPutMeta (runMain env (f :: rest) pub md owner env_name).2 = 0
        ∧ countPublish (runMain env (f :: rest) pub md owner env_name).2 = 0)
    ∧ (env.putFileOk = true → env.putMetaOk = false →
        (runMain env (f :: rest) pub md owner env_name).1
            = Except.error Err.httpError
          ∧ countPutFile (runMain env (f :: rest) pub md owner env_name).2 = 1
          ∧ countPutMeta (runMain env (f :: rest) pub md owner env_name).2 = 1
          ∧ countPublish (runMain env (f :: rest) pub md owner env_name).2 = 0)
    ∧ (env.putFileOk = true → env.putMetaOk = true → env.publishOk = false →
        pub = true →
        (runMain env (f :: rest) pub md owner env_name).1
            = Except.error Err.httpError
          ∧ countPublish (runMain env (f :: rest) pub md owner env_name).2
              = 1) := by
  have hup := upload_nonarchive env env.createResp.val.id f
    env.createResp.val.bucket
    (pyReplace env.createResp.val.html "deposit" "record")
    (basename (env.absPath f)) env_name (hNA f (List.mem_cons_self f rest))
  have hrc := runMain_creation env (f :: rest) pub md owner env_name hsr
  refine ⟨?_, ?_, ?_⟩
  · intro hPF
    have hloop : uploadLoopNew env env_name md env.createResp.val.id
        env.createResp.val.bucket
        (pyReplace env.createResp.val.html "deposit" "record") (f :: rest)
        = (Except.error Err.httpError,
          [Ev.putFile env.createResp.val.bucket
            (basename (env.absPath f))]) := by
      unfold uploadLoopNew
      dsimp only
      rw [hfiles (env.absPath f), hup, hPF]
      rfl
    have hcb : creationBranch env env_name md (f :: rest) pub
        = (Except.error Err.httpError,
          [Ev.newDepositionPost,
            Ev.putFile env.createResp.val.bucket
              (basename (env.absPath f))]) := by
      unfold creationBranch
      dsimp only
      rw [create_new_deposition_ok env hC]
      dsimp only
      rw [hloop]
      rfl
    rw [hrc, hcb]
    exact ⟨rfl, rfl, rfl, rfl⟩
  · intro hPF hPM
    have hloop : uploadLoopNew env env_name md env.createResp.val.id
        env.createResp.val.bucket
        (pyReplace env.createResp.val.html "deposit" "record") (f :: rest)
        = (Except.error Err.httpError,
          [Ev.putFile env.createResp.val.bucket (basename (env.absPath f)),
            Ev.putMetadata env.createResp.val.id]) := by
      unfold uploadLoopNew
      dsimp only
      rw [hfiles (env.absPath f), hup, hPF]
      dsimp only
      rw [add_meta_data_eq, hPM]
      rfl
    have hcb : creationBranch env env_name md (f :: rest) pub
        = (Except.error Err.httpError,
          [Ev.newDepositionPost,
            Ev.putFile env.createResp.val.bucket (basename (env.absPath f)),
            Ev.putMetadata env.createResp.val.id]) := by
      unfold creationBranch
      dsimp only
      rw [create_new_deposition_ok env hC]
      dsimp only
      rw [hloop]
      rfl
    rw [hrc, hcb]
    exact ⟨rfl, rfl, rfl, rfl⟩
  · intro hPF hPM hPub hpubflag
    subst hpubflag
    have hloop := uploadLoopNew_nonarchive env env_name md
      env.createResp.val.id env.createResp.val.bucket
      (pyReplace env.createResp.val.html "deposit" "record")
      hPF hPM hfiles (f :: rest) hNA
    have hcb : creationBranch env env_name md (f :: rest) true
        = (Except.error Err.httpError,
          [Ev.newDepositionPost]
            ++ newTraceNA env env.createResp.val.id
                env.createResp.val.bucket (f :: rest)
            ++ [Ev.publishPost env.createResp.val.id]) := by
      unfold creationBranch
      dsimp only
      rw [create_new_deposition_ok env hC]
      dsimp only
      rw [hloop]
      dsimp only
      unfold publish_file
      rw [hPub]
      rfl
    rw [hrc, hcb]
    refine ⟨rfl, ?_⟩
    rw [countPublish_append, countPublish_append, countPublish_append,
      newTraceNA_no_publish]
    rfl

/-- Witness for C9: with a failing upload PUT the concrete run aborts
after exactly one PUT, with no metadata or publish call. -/
theorem claim_C9_witness :
    ((envPutFail.putFileOk = false →
      (runMain envPutFail ["a.txt", "b.txt"] true ⟨"T"⟩ "me" "env").1
          = Except.error Err.httpError
        ∧ countPutFile (runMain envPutFail ["a.txt", "b.txt"] true ⟨"T"⟩
            "me" "env").2 = 1
        ∧ countPutMeta (runMain envPutFail ["a.txt", "b.txt"] true ⟨"T"⟩
            "me" "env").2 = 0
        ∧ countPublish (runMain envPutFail ["a.txt", "b.txt"] true ⟨"T"⟩
            "me" "env").2 = 0)
    ∧ (envPutFail.putFileOk = true → envPutFail.putMetaOk = false →
        (runMain envPutFail ["a.txt", "b.txt"] true ⟨"T"⟩ "me" "env").1
            = Except.error Err.httpError
          ∧ countPutFile (runMain envPutFail ["a.txt", "b.txt"] true ⟨"T"⟩
              "me" "env").2 = 1
          ∧ countPutMeta (runMain envPutFail ["a.txt", "b.txt"] true ⟨"T"⟩
              "me" "env").2 = 1
          ∧ countPublish (runMain envPutFail ["a.txt", "b.txt"] true ⟨"T"⟩
              "me" "env").2 = 0)
    ∧ (envPutFail.putFileOk = true → envPutFail.putMetaOk = true →
        envPutFail.publishOk = false → true = true →
        (runMain envPutFail ["a.txt", "b.txt"] true ⟨"T"⟩ "me" "env").1
            = Except.error Err.httpError
          ∧ countPublish (runMain envPutFail ["a.txt", "b.txt"] true ⟨"T"⟩
              "me" "env").2 = 1)) :=
  claim_C9 envPutFail "a.txt" ["b.txt"] true ⟨"T"⟩ "me" "env"
    rfl rfl (fun _ => rfl) (by decide)

end ZenodoUploader
